import Mathlib

/-!
Verification of the nestapi event-stream watcher and error model.

Strings from the Go source are modelled as lists of characters (`Str`);
Go's `bufio.Reader.ReadLine` is modelled by fragments carrying the
`isPrefix` continuation flag; the JSON behaviour of `encoding/json`'s
`Unmarshal` into `map[string]interface{}` and into the `APIError` struct
is modelled by an executable JSON reader.  The two revisions of the
watch subsystem present in the repository (`watch.go` and the older
revision) are both embedded.
-/

abbrev Str := List Char

/-- Event type constants from watch.go. -/
def EventTypePut : Str := "put".data

def EventTypePatch : Str := "patch".data

def EventTypeError : Str := "event_error".data

def EventTypeAuthRevoked : Str := "auth_revoked".data

def eventTypeKeepAlive : Str := "keep-alive".data

def eventTypeCancel : Str := "cancel".data

def eventTypeRulesDebug : Str := "rules_debug".data

/-- The literal prefix stripped from the event line, from watch.go. -/
def strEventPre : Str := "event: ".data

/-- The literal prefix stripped from the data line, from watch.go. -/
def strDataPre : Str := "data: ".data

/-- Key "path" looked up in the decoded JSON object (watch.go). -/
def strPathKey : Str := "path".data

/-- Key "data" looked up in the decoded JSON object (watch.go). -/
def strDataKey : Str := "data".data

/-- Models strings.Split(s, sep) for a one-character separator, which is
how watch.go splits the frame text on the newline and how the APIError
code splits Type on the hash character. -/
def splitOnChar (sep : Char) : Str → List Str
  | [] => [[]]
  | c :: r =>
    if c = sep then [] :: splitOnChar sep r
    else
      match splitOnChar sep r with
      | [] => [[c]]
      | h :: t => (c :: h) :: t

/-- Boolean test that pat is an initial segment of s. -/
def leadsWith : Str → Str → Bool
  | [], _ => true
  | _ :: _, [] => false
  | p :: ps, c :: cs => p = c && leadsWith ps cs

/-- Models strings.Replace(s, pat, "", 1): remove the first occurrence of
pat from s, returning s unchanged when pat does not occur. -/
def stripFirst (pat : Str) : Str → Str
  | [] => []
  | c :: rest =>
    if leadsWith pat (c :: rest) then (c :: rest).drop pat.length
    else c :: stripFirst pat rest

/-- One result of bufio.Reader.ReadLine: the returned bytes and the
isPrefix continuation flag. -/
structure Frag where
  content : Str
  isPref : Bool

/-- Models the sequence of results bufio.Reader.ReadLine produces for one
logical line when the internal buffer holds B characters: full-buffer
fragments flagged as prefixes (continuations), then a final fragment
that completes the line.  The B = 0 guard is unreachable for a real
reader (bufio enforces a positive buffer size) and only makes the
recursion well-founded. -/
def chunk (B : Nat) (s : Str) : List Frag :=
  if s.length < B then [⟨s, false⟩]
  else if _hB : B = 0 then [⟨s, false⟩]
  else ⟨s.take B, true⟩ :: chunk B (s.drop B)
termination_by s.length
decreasing_by
  simp only [List.length_drop]
  omega

/-- Values held by a Go interface{} after JSON decoding: the shapes
encoding/json produces, plus an error value for the Event.Data field of
a synthetic error event.  Numbers are kept as their literal text since
no code in the repository computes with them. -/
inductive GoVal where
  | jnull
  | jbool (b : Bool)
  | jnum (lit : Str)
  | jstr (s : Str)
  | jarr (xs : List GoVal)
  | jobj (kvs : List (Str × GoVal))
  | errVal (e : Str)

/-- JSON whitespace accepted by encoding/json. -/
def isWs (c : Char) : Bool := c = ' ' || c = '\t' || c = '\n' || c = '\r'

def skipWs : Str → Str
  | [] => []
  | c :: r => if isWs c then skipWs r else c :: r

def isDigit (c : Char) : Bool := '0' ≤ c && c ≤ '9'

def isHexDigit (c : Char) : Bool :=
  ('0' ≤ c && c ≤ '9') || ('a' ≤ c && c ≤ 'f') || ('A' ≤ c && c ≤ 'F')

def hexVal (c : Char) : Nat :=
  if '0' ≤ c ∧ c ≤ '9' then c.toNat - '0'.toNat
  else if 'a' ≤ c ∧ c ≤ 'f' then c.toNat - 'a'.toNat + 10
  else c.toNat - 'A'.toNat + 10

/-- Single-character JSON string escapes. -/
def escChar (e : Char) : Option Char :=
  if e = '"' then some '"'
  else if e = '\\' then some '\\'
  else if e = '/' then some '/'
  else if e = 'b' then some (Char.ofNat 8)
  else if e = 'f' then some (Char.ofNat 12)
  else if e = 'n' then some '\n'
  else if e = 'r' then some '\r'
  else if e = 't' then some '\t'
  else none

/-- Reads the body of a JSON string after the opening quote, handling
escapes; returns the decoded characters and the input after the closing
quote. -/
def parseStrBody : Nat → Str → Option (Str × Str)
  | 0, _ => none
  | fuel + 1, s =>
    match s with
    | [] => none
    | c :: r =>
      if c = '"' then some ([], r)
      else if c = '\\' then
        match r with
        | 'u' :: h1 :: h2 :: h3 :: h4 :: r3 =>
          if isHexDigit h1 && isHexDigit h2 && isHexDigit h3 && isHexDigit h4 then
            (parseStrBody fuel r3).map
              (fun p => (Char.ofNat (((hexVal h1 * 16 + hexVal h2) * 16 + hexVal h3) * 16 + hexVal h4) :: p.1, p.2))
          else none
        | e :: r2 =>
          match escChar e with
          | some ce => (parseStrBody fuel r2).map (fun p => (ce :: p.1, p.2))
          | none => none
        | [] => none
      else if c.toNat < 32 then none
      else (parseStrBody fuel r).map (fun p => (c :: p.1, p.2))

/-- Longest initial run of decimal digits. -/
def spanDigits : Str → Str × Str
  | [] => ([], [])
  | c :: r =>
    if isDigit c then
      let p := spanDigits r
      (c :: p.1, p.2)
    else ([], c :: r)

/-- Optional fraction part of a JSON number. -/
def parseFrac (s : Str) : Option (Str × Str) :=
  match s with
  | '.' :: r =>
    match spanDigits r with
    | ([], _) => none
    | (ds, r2) => some ('.' :: ds, r2)
  | _ => some ([], s)

/-- Optional exponent part of a JSON number. -/
def parseExp (s : Str) : Option (Str × Str) :=
  match s with
  | [] => some ([], [])
  | c :: r =>
    if c = 'e' ∨ c = 'E' then
      let sg : Str × Str :=
        match r with
        | '+' :: r2 => (['+'], r2)
        | '-' :: r2 => (['-'], r2)
        | _ => ([], r)
      match spanDigits sg.2 with
      | ([], _) => none
      | (ds, r2) => some (c :: sg.1 ++ ds, r2)
    else some ([], c :: r)

/-- Lexes a JSON number per the grammar encoding/json enforces,
returning its literal text. -/
def parseNum (s : Str) : Option (Str × Str) :=
  let neg : Str × Str :=
    match s with
    | '-' :: r => (['-'], r)
    | _ => ([], s)
  match neg.2 with
  | [] => none
  | c :: r =>
    if c = '0' then
      match parseFrac r with
      | none => none
      | some (fr, r2) =>
        match parseExp r2 with
        | none => none
        | some (ex, r3) => some (neg.1 ++ '0' :: (fr ++ ex), r3)
    else if isDigit c then
      let p := spanDigits r
      match parseFrac p.2 with
      | none => none
      | some (fr, r2) =>
        match parseExp r2 with
        | none => none
        | some (ex, r3) => some (neg.1 ++ c :: (p.1 ++ fr ++ ex), r3)
    else none

/-- Checks that lit is an initial segment of s and drops it. -/
def dropLit (lit : Str) (s : Str) : Option Str :=
  if leadsWith lit s then some (s.drop lit.length) else none

mutual

/-- Reads one JSON value; the input must start at the value (callers
skip whitespace first).  Fuel makes the recursion structural; a supply
of one unit per input character is always enough. -/
def parseVal : Nat → Str → Option (GoVal × Str)
  | 0, _ => none
  | fuel + 1, s =>
    match s with
    | [] => none
    | c :: r =>
      if c = 'n' then
        match dropLit "ull".data r with
        | some r2 => some (.jnull, r2)
        | none => none
      else if c = 't' then
        match dropLit "rue".data r with
        | some r2 => some (.jbool true, r2)
        | none => none
      else if c = 'f' then
        match dropLit "alse".data r with
        | some r2 => some (.jbool false, r2)
        | none => none
      else if c = '"' then
        match parseStrBody (r.length + 1) r with
        | some (s1, r2) => some (.jstr s1, r2)
        | none => none
      else if c = '[' then
        match skipWs r with
        | ']' :: r2 => some (.jarr [], r2)
        | r1 =>
          match parseElems fuel r1 with
          | some (xs, r2) => some (.jarr xs, r2)
          | none => none
      else if c = '\x7b' then
        match skipWs r with
        | [] => none
        | c2 :: r2 =>
          if c2 = '\x7d' then some (.jobj [], r2)
          else
            match parseMembers fuel (c2 :: r2) with
            | some (kvs, r3) => some (.jobj kvs, r3)
            | none => none
      else if c = '-' ∨ isDigit c then
        match parseNum (c :: r) with
        | some (lit, r2) => some (.jnum lit, r2)
        | none => none
      else none

/-- Reads the elements of a non-empty JSON array up to the closing
bracket. -/
def parseElems : Nat → Str → Option (List GoVal × Str)
  | 0, _ => none
  | fuel + 1, s =>
    match parseVal fuel s with
    | none => none
    | some (v, r) =>
      match skipWs r with
      | ',' :: r2 =>
        match parseElems fuel (skipWs r2) with
        | some (xs, r3) => some (v :: xs, r3)
        | none => none
      | ']' :: r2 => some ([v], r2)
      | _ => none

/-- Reads the members of a non-empty JSON object up to the closing
brace. -/
def parseMembers : Nat → Str → Option (List (Str × GoVal) × Str)
  | 0, _ => none
  | fuel + 1, s =>
    match s with
    | [] => none
    | c :: r =>
      if c = '"' then
        match parseStrBody (r.length + 1) r with
        | none => none
        | some (k, r1) =>
          match skipWs r1 with
          | ':' :: r2 =>
            match parseVal fuel (skipWs r2) with
            | none => none
            | some (v, r3) =>
              match skipWs r3 with
              | [] => none
              | ',' :: r4 =>
                match parseMembers fuel (skipWs r4) with
                | some (kvs, r5) => some ((k, v) :: kvs, r5)
                | none => none
              | c5 :: r5 => if c5 = '\x7d' then some ([(k, v)], r5) else none
          | _ => none
      else none

end

/-- Parses a complete JSON text: one value with only whitespace around
it, as json.Unmarshal requires. -/
def parseTop (s : Str) : Option GoVal :=
  match parseVal (s.length + 1) (skipWs s) with
  | some (v, r) => if skipWs r = [] then some v else none
  | none => none

/-- Models json.Unmarshal(b, &m) for m of type map[string]interface.
Invalid JSON and any top-level value other than an object or null are
errors; null leaves the map nil (modelled as none); an object yields
its key/value list. -/
def unmarshalMap (s : Str) : Except Unit (Option (List (Str × GoVal))) :=
  match parseTop s with
  | none => .error ()
  | some .jnull => .ok none
  | some (.jobj kvs) => .ok (some kvs)
  | some _ => .error ()

/-- Go map indexing: for duplicate JSON keys the last occurrence wins,
as each assignment overwrites the earlier one. -/
def mapGet (kvs : List (Str × GoVal)) (k : Str) : Option GoVal :=
  match kvs with
  | [] => none
  | kv :: rest =>
    match mapGet rest k with
    | some w => some w
    | none => if kv.1 = k then some kv.2 else none

/-- Indexing a possibly-nil map: a nil map yields no entry for any
key, which Go reports as the zero interface value. -/
def mapGetOpt (m : Option (List (Str × GoVal))) (k : Str) : Option GoVal :=
  match m with
  | none => none
  | some kvs => mapGet kvs k

/-- The value of the unchecked type assertion data["path"].(string) in
watch.go: some p when the entry exists and holds a string, none when
the assertion would panic. -/
def pathString (m : Option (List (Str × GoVal))) : Option Str :=
  match mapGetOpt m strPathKey with
  | some (.jstr p) => some p
  | _ => none

/-- The value stored into Event.Data for a put or patch event:
data["data"], the zero interface (JSON null) when absent. -/
def dataValue (m : Option (List (Str × GoVal))) : GoVal :=
  (mapGetOpt m strDataKey).getD .jnull

/-- Errors that can set scanErr in the read loop: an I/O error from
ReadLine (EOF, reset, or the error induced by closing the body), or a
JSON decode failure from json.Unmarshal. -/
inductive ScanErr where
  | ioErr (msg : Str)
  | badJson
deriving DecidableEq

/-- Message text of a scan error, for part_000 which stores
scanErr.Error() into Event.Data. -/
def errMsg : ScanErr → Str
  | .ioErr m => m
  | .badJson => "invalid character".data

/-- The Event struct of watch.go.  part_000's Event has only Type and
Data; its embedding leaves the other fields at their zero values. -/
structure Event where
  Type_ : Str
  Path : Str
  Data : GoVal
  RawData : Str

/-- Position of the scanning loop inside one frame: about to read the
event line, accumulating the data line, or about to read and discard
the blank separator line. -/
inductive Mode where
  | expectEvent
  | readData (evt : Str) (acc : Str)
  | expectBlank (evt : Str) (dat : Str)

/-- How the scanning loop in watch.go leaves its frame loop: with
scanErr set, via break on a cancel/auth_revoked frame with scanErr nil,
or by panicking on the data["path"].(string) assertion. -/
inductive RunEnd where
  | err (e : ScanErr)
  | clean
  | panicked
deriving DecidableEq

/-- What the switch on event.Type in watch.go does with one decoded
frame: deliver events and continue, deliver and break scanning, set
scanErr and break scanning, or panic. -/
inductive FrameAct where
  | cont (evs : List Event)
  | stopClean (evs : List Event)
  | stopErr (e : ScanErr)
  | panicA

/-- The switch statement of watch.go (lines 203-236), acting on the
stripped event type and raw data line.  Unknown types match no case and
fall through: no event, no error, the loop continues. -/
def decodeFrame (ty raw : Str) : FrameAct :=
  if ty = EventTypePut ∨ ty = EventTypePatch then
    match unmarshalMap raw with
    | .error _ => .stopErr .badJson
    | .ok m =>
      match pathString m with
      | some p => .cont [⟨ty, p, dataValue m, raw⟩]
      | none => .panicA
  else if ty = eventTypeKeepAlive then .cont []
  else if ty = eventTypeCancel then .stopClean [⟨ty, [], .jnull, raw⟩]
  else if ty = EventTypeAuthRevoked then .stopClean [⟨ty, [], .jstr raw, raw⟩]
  else if ty = eventTypeRulesDebug then .cont []
  else .cont []

/-- The scanning loop of watch.go's watch goroutine, one ReadLine
result at a time.  Running out of fragments models ReadLine returning
the stream's terminal error (EOF, reset, or the error induced by
closing the body), which breaks the loop with scanErr set and the
partially read frame discarded. -/
def runFrom : Mode → List Frag → ScanErr → List Event × RunEnd
  | _, [], e => ([], .err e)
  | .expectEvent, f :: rest, e => runFrom (.readData f.content []) rest e
  | .readData evt acc, f :: rest, e =>
    if f.isPref then runFrom (.readData evt (acc ++ f.content)) rest e
    else runFrom (.expectBlank evt (acc ++ f.content)) rest e
  | .expectBlank evt dat, _ :: rest, e =>
    let txt := evt ++ '\n' :: (dat ++ ['\n'])
    let parts := splitOnChar '\n' txt
    let ty := stripFirst strEventPre (parts.getD 0 [])
    let raw := stripFirst strDataPre (parts.getD 1 [])
    match decodeFrame ty raw with
    | .cont evs =>
      let p := runFrom .expectEvent rest e
      (evs ++ p.1, p.2)
    | .stopClean evs => (evs, .clean)
    | .stopErr e2 => ([], .err e2)
    | .panicA => ([], .panicked)

/-- The whole read loop of watch.go's watch goroutine on a stream whose
ReadLine eventually fails with endErr. -/
def runWatch (frags : List Frag) (endErr : ScanErr) : List Event × RunEnd :=
  runFrom .expectEvent frags endErr

/-- The synthetic error event watch.go sends when the loop exits with
scanErr non-nil. -/
def errEvent (e : ScanErr) : Event := ⟨EventTypeError, [], .errVal (errMsg e), []⟩

/-- Everything the watch goroutine of watch.go sends on its internal
events channel, and whether it reaches close(notifications): after the
loop it appends the synthetic error event when scanErr is non-nil, then
closes; a panic kills the goroutine before the close. -/
def watchChan (frags : List Frag) (endErr : ScanErr) : List Event × Bool :=
  match runWatch frags endErr with
  | (evs, .err e) => (evs ++ [errEvent e], true)
  | (evs, .clean) => (evs, true)
  | (evs, .panicked) => (evs, false)

/-- The forwarding goroutine of Watch in watch.go (lines 104-116): it
copies events to the consumer channel, except that once closedManually
is set an EventTypeError event breaks the loop undelivered; on leaving
the loop it closes the consumer channel.  Returns the delivered events
and whether the consumer channel gets closed (the inner channel being
closed lets the range loop finish). -/
def forwardRun (cm : Bool) : List Event → Bool → List Event × Bool
  | [], innerClosed => ([], innerClosed)
  | ev :: rest, innerClosed =>
    if ev.Type_ = EventTypeError ∧ cm then ([], true)
    else
      let p := forwardRun cm rest innerClosed
      (ev :: p.1, p.2)

/-- The consumer's view of one watch.go session: the events delivered
on the caller's channel and whether that channel gets closed, given
whether StopWatching was invoked (cm) and the underlying stream. -/
def consumerRun (cm : Bool) (frags : List Frag) (endErr : ScanErr) : List Event × Bool :=
  let w := watchChan frags endErr
  forwardRun cm w.1 w.2

/-- The switch statement of the older revision (part_000 lines
143-170): put and patch carry the raw data string, cancel and
auth_revoked are sent with the zero Data and break the loop, everything
else falls through. -/
def decodeFrameOld (ty raw : Str) : FrameAct :=
  if ty = EventTypePut ∨ ty = EventTypePatch then .cont [⟨ty, [], .jstr raw, []⟩]
  else if ty = eventTypeKeepAlive then .cont []
  else if ty = eventTypeCancel then .stopClean [⟨ty, [], .jstr [], []⟩]
  else if ty = EventTypeAuthRevoked then .stopClean [⟨ty, [], .jstr [], []⟩]
  else if ty = eventTypeRulesDebug then .cont []
  else .cont []

/-- The scanning loop of the older revision's Watch goroutine; it never
parses JSON and never panics, so the loop always ends with an optional
scanErr. -/
def runFromOld : Mode → List Frag → ScanErr → List Event × Option ScanErr
  | _, [], e => ([], some e)
  | .expectEvent, f :: rest, e => runFromOld (.readData f.content []) rest e
  | .readData evt acc, f :: rest, e =>
    if f.isPref then runFromOld (.readData evt (acc ++ f.content)) rest e
    else runFromOld (.expectBlank evt (acc ++ f.content)) rest e
  | .expectBlank evt dat, _ :: rest, e =>
    let txt := evt ++ '\n' :: (dat ++ ['\n'])
    let parts := splitOnChar '\n' txt
    let ty := stripFirst strEventPre (parts.getD 0 [])
    let raw := stripFirst strDataPre (parts.getD 1 [])
    match decodeFrameOld ty raw with
    | .cont evs =>
      let p := runFromOld .expectEvent rest e
      (evs ++ p.1, p.2)
    | .stopClean evs => (evs, none)
    | .stopErr e2 => ([], some e2)
    | .panicA => ([], none)

/-- The tail of the older revision's Watch goroutine (part_000 lines
173-188): the error event is sent only when the closure was not
caller-initiated, then n.StopWatching() clears the watching flag and
close(notifications) closes the channel — on every exit path.  Returns
(events sent, channel closed, watching flag afterwards). -/
def watchChanOld (frags : List Frag) (endErr : ScanErr) (cm : Bool) :
    List Event × Bool × Bool :=
  let r := runFromOld .expectEvent frags endErr
  let evs :=
    match r.2 with
    | some e => if cm then r.1 else r.1 ++ [⟨EventTypeError, [], .jstr (errMsg e), []⟩]
    | none => r.1
  (evs, true, false)

/-- The per-handle state Watch and StopWatching act on: the watching
flag, the closedManually bit the stop monitor sets, whether building
and issuing the SSE request succeeds (the Transport collaborator), and
the byte stream the active session reads. -/
structure Handle where
  watching : Bool
  closedManually : Bool
  transportOk : Bool
  frags : List Frag
  endErr : ScanErr

/-- What one call to Watch in watch.go returns and does synchronously:
whether it returned nil, the events sent on the caller's channel during
the call, whether that channel was closed during the call, and whether
a new session was started. -/
structure WatchRes where
  returnedNil : Bool
  chanEvents : List Event
  chanClosed : Bool
  startedSession : Bool

/-- Watch from watch.go (lines 81-118): an already-watching handle gets
its fresh channel closed and nil returned with nothing else touched;
otherwise the watching flag is set and the session goroutines start (or
the flag is rolled back when the request fails). -/
def Watch (h : Handle) : WatchRes × Handle :=
  if h.watching then (⟨true, [], true, false⟩, h)
  else if h.transportOk then
    (⟨true, [], false, true⟩, ⟨true, h.closedManually, h.transportOk, h.frags, h.endErr⟩)
  else (⟨false, [], false, false⟩, ⟨false, h.closedManually, h.transportOk, h.frags, h.endErr⟩)

/-- StopWatching from watch.go (lines 53-60): when watching, signal the
stop channel (the monitor goroutine sets closedManually and forces the
connection closed) and clear the flag; otherwise do nothing. -/
def StopWatching (h : Handle) : Handle :=
  if h.watching then ⟨false, true, h.transportOk, h.frags, h.endErr⟩ else h

/-- The consumer-visible outcome of the handle's active session. -/
def sessionTrace (h : Handle) : List Event × Bool :=
  consumerRun h.closedManually h.frags h.endErr

/-- Running the session goroutines of watch.go to completion: they send
and close channels but never write the handle's watching flag (only
StopWatching does), so the handle state is returned unchanged. -/
def runSession (h : Handle) : (List Event × Bool) × Handle :=
  (sessionTrace h, h)

/-- Fragment sequence of one well-formed 3-line frame, each line
delivered by a single complete ReadLine result. -/
def frameFrags (ty d : Str) : List Frag :=
  [⟨strEventPre ++ ty, false⟩, ⟨strDataPre ++ d, false⟩, ⟨[], false⟩]

/-- The APIError struct of part_001.  Absent JSON keys leave the zero
value, as encoding/json does. -/
structure APIError where
  OldError : Str
  Type_ : Str
  Message : Str
  Instance : Str
  Details : GoVal

/-- Decoding one JSON object entry into a Go string field: absent or
null leaves the zero value, a string sets it, any other value is an
UnmarshalTypeError.  The outer none is the error case. -/
def getStrField (kvs : List (Str × GoVal)) (k : Str) : Option (Option Str) :=
  match mapGet kvs k with
  | none => some none
  | some (.jstr s) => some (some s)
  | some .jnull => some none
  | some _ => none

/-- Models json.Unmarshal(respBody, &apiError) in nestapi.go: none when
Unmarshal returns an error (invalid JSON, wrong top-level type, or a
non-string value for a string field), otherwise the decoded struct. -/
def unmarshalAPIError (s : Str) : Option APIError :=
  match parseTop s with
  | none => none
  | some .jnull => some ⟨[], [], [], [], .jnull⟩
  | some (.jobj kvs) =>
    match getStrField kvs "error".data, getStrField kvs "type".data,
        getStrField kvs "message".data, getStrField kvs "instance".data with
    | some a, some b, some c, some d =>
      some ⟨a.getD [], b.getD [], c.getD [], d.getD [], (mapGet kvs "details".data).getD .jnull⟩
    | _, _, _, _ => none
  | some _ => none

/-- The fallback APIError nestapi.go builds when the error body fails
JSON parsing. -/
def fallbackAPIError : APIError :=
  ⟨[], "nestapi#json-parse".data, "Unable to parse Nest API JSON".data, [], .jnull⟩

/-- How doRequest in nestapi.go disposes of an HTTP response. -/
inductive WriteOutcome where
  | redirect
  | failure (e : APIError)
  | success (body : Str)

/-- The response handling of doRequest (nestapi.go lines 200-233): a
307 is re-issued to the Location target; then the body is read and the
request fails iff resp.StatusCode/200 != 1 (integer division), the
error being the decoded body or the fallback APIError. -/
def classifyResponse (status : Nat) (body : Str) : WriteOutcome :=
  if status = 307 then .redirect
  else if status / 200 ≠ 1 then .failure ((unmarshalAPIError body).getD fallbackAPIError)
  else .success body

/-- Reason from part_001: strings.Split(n.Type, "#")[1].  The result is
none exactly when the index is out of range, which in Go is a panic. -/
def Reason (e : APIError) : Option Str :=
  (splitOnChar '#' e.Type_)[1]?

/-- HumanMessage from part_001; it calls Reason, so it panics whenever
Reason does. -/
def HumanMessage (e : APIError) : Option Str :=
  (Reason e).map (fun r =>
    if r = "blocked".data then
      "The Nest API has blocked further requests. Please try again later.".data
    else if r = "not-found".data then
      "The information requested was not found.".data
    else if r = "auth-error".data then
      "Your are not authorized to view the Nest account.".data
    else if r = "forbidden".data ∨ r = "service-unavailable".data then
      "There is an issue with the Nest service. Please try again later.".data
    else if r = "unknown".data then
      "An unknown error has occurred on the Nest service.".data
    else e.Message)

/-- Error from part_001: Reason() + "||" + HumanMessage(); none when
either call panics. -/
def ErrorString (e : APIError) : Option Str :=
  match Reason e, HumanMessage e with
  | some r, some h => some (r ++ "||".data ++ h)
  | _, _ => none

theorem splitOnChar_append (sep : Char) (a r : Str) (ha : sep ∉ a) :
    splitOnChar sep (a ++ sep :: r) = a :: splitOnChar sep r := by
  induction a with
  | nil => simp [splitOnChar]
  | cons c cs ih =>
    have hc : ¬c = sep := fun h => ha (h ▸ List.mem_cons_self c cs)
    have hcs : sep ∉ cs := fun h => ha (List.mem_cons_of_mem c h)
    simp only [List.cons_append, splitOnChar, if_neg hc, List.append_eq, ih hcs]

theorem splitOnChar_eq_single (sep : Char) (s : Str) (h : sep ∉ s) :
    splitOnChar sep s = [s] := by
  induction s with
  | nil => rfl
  | cons c cs ih =>
    have hc : ¬c = sep := fun hcc => h (hcc ▸ List.mem_cons_self c cs)
    have hcs : sep ∉ cs := fun hm => h (List.mem_cons_of_mem c hm)
    simp only [splitOnChar, if_neg hc, ih hcs]

theorem leadsWith_append (pat tail : Str) : leadsWith pat (pat ++ tail) = true := by
  induction pat with
  | nil => rfl
  | cons p ps ih => simp [leadsWith, ih]

theorem stripFirst_pre (pat tail : Str) : stripFirst pat (pat ++ tail) = tail := by
  cases pat with
  | nil =>
    cases tail with
    | nil => rfl
    | cons c cs => simp [stripFirst, leadsWith]
  | cons p ps =>
    show stripFirst (p :: ps) (p :: (ps ++ tail)) = tail
    rw [stripFirst, if_pos]
    · show (p :: ps ++ tail).drop (p :: ps).length = tail
      exact List.drop_left _ _
    · exact leadsWith_append (p :: ps) tail

/-- Events carried by a FrameAct, for stating facts about the switch. -/
def actEvents : FrameAct → List Event
  | .cont evs => evs
  | .stopClean evs => evs
  | .stopErr _ => []
  | .panicA => []

theorem decodeFrame_no_error (ty raw : Str) (ev : Event)
    (h : ev ∈ actEvents (decodeFrame ty raw)) : ev.Type_ ≠ EventTypeError := by
  unfold decodeFrame at h
  split_ifs at h with h1 h2 h3 h4 h5
  · rcases hm : unmarshalMap raw with u | m
    · rw [hm] at h
      simp [actEvents] at h
    · rw [hm] at h
      dsimp only at h
      rcases hp : pathString m with _ | p
      · rw [hp] at h
        simp [actEvents] at h
      · rw [hp] at h
        simp only [actEvents, List.mem_singleton] at h
        subst h
        show ty ≠ EventTypeError
        rcases h1 with h1 | h1 <;> subst h1 <;> decide
  · simp [actEvents] at h
  · simp only [actEvents, List.mem_singleton] at h
    subst h
    show ty ≠ EventTypeError
    subst h3
    decide
  · simp only [actEvents, List.mem_singleton] at h
    subst h
    show ty ≠ EventTypeError
    subst h4
    decide
  · simp [actEvents] at h
  · simp [actEvents] at h

theorem runFrom_no_error_event (frags : List Frag) :
    ∀ (m : Mode) (e : ScanErr) (ev : Event),
      ev ∈ (runFrom m frags e).1 → ev.Type_ ≠ EventTypeError := by
  induction frags with
  | nil =>
    intro m e ev h
    cases m <;> simp [runFrom] at h
  | cons f rest ih =>
    intro m e ev h
    cases m with
    | expectEvent =>
      rw [runFrom] at h
      exact ih _ _ _ h
    | readData evt acc =>
      rw [runFrom] at h
      by_cases hp : f.isPref
      · rw [if_pos hp] at h
        exact ih _ _ _ h
      · rw [if_neg hp] at h
        exact ih _ _ _ h
    | expectBlank evt dat =>
      rw [runFrom] at h
      set ty := stripFirst strEventPre
        ((splitOnChar '\n' (evt ++ '\n' :: (dat ++ ['\n']))).getD 0 []) with hty
      set raw := stripFirst strDataPre
        ((splitOnChar '\n' (evt ++ '\n' :: (dat ++ ['\n']))).getD 1 []) with hraw
      rcases hdf : decodeFrame ty raw with evs | evs | e2 | _ <;> rw [hdf] at h
      · simp only [List.mem_append] at h
        rcases h with h | h
        · exact decodeFrame_no_error ty raw ev (by rw [hdf]; exact h)
        · exact ih _ _ _ h
      · exact decodeFrame_no_error ty raw ev (by rw [hdf]; exact h)
      · simp at h
      · simp at h

theorem forwardRun_pass (cm : Bool) (evs : List Event) (c : Bool)
    (h : ∀ ev ∈ evs, ¬(ev.Type_ = EventTypeError ∧ cm)) :
    forwardRun cm evs c = (evs, c) := by
  induction evs with
  | nil => rfl
  | cons ev rest ih =>
    rw [forwardRun, if_neg (h ev (List.mem_cons_self ev rest))]
    have := ih (fun x hx => h x (List.mem_cons_of_mem ev hx))
    simp [this]

theorem forwardRun_false (evs : List Event) (c : Bool) :
    forwardRun false evs c = (evs, c) :=
  forwardRun_pass false evs c (by simp)

theorem forwardRun_stop (evs : List Event) (c : Bool) (e : Event)
    (hevs : ∀ ev ∈ evs, ev.Type_ ≠ EventTypeError) (he : e.Type_ = EventTypeError) :
    forwardRun true (evs ++ [e]) c = (evs, true) := by
  induction evs with
  | nil => simp [forwardRun, he]
  | cons ev rest ih =>
    rw [List.cons_append, forwardRun,
      if_neg (by simp [hevs ev (List.mem_cons_self ev rest)])]
    have := ih (fun x hx => hevs x (List.mem_cons_of_mem ev hx))
    simp [this]

theorem forwardRun_snd_true (cm : Bool) (evs : List Event) :
    (forwardRun cm evs true).2 = true := by
  induction evs with
  | nil => rfl
  | cons ev rest ih =>
    rw [forwardRun]
    by_cases h : ev.Type_ = EventTypeError ∧ cm
    · rw [if_pos h]
    · rw [if_neg h]
      simpa using ih

theorem consumerRun_closed (cm : Bool) (frags : List Frag) (e0 : ScanErr)
    (h : (runWatch frags e0).2 ≠ RunEnd.panicked) : (consumerRun cm frags e0).2 = true := by
  unfold consumerRun watchChan
  rcases hr : runWatch frags e0 with ⟨evs, fin⟩
  cases fin with
  | err e => exact forwardRun_snd_true cm (evs ++ [errEvent e])
  | clean => exact forwardRun_snd_true cm evs
  | panicked => exact absurd (by rw [hr]) h

theorem runFrom_frame (ty d : Str) (rest : List Frag) (e : ScanErr)
    (hty : '\n' ∉ ty) (hd : '\n' ∉ d) :
    runFrom .expectEvent (frameFrags ty d ++ rest) e =
      match decodeFrame ty d with
      | .cont evs => (evs ++ (runFrom .expectEvent rest e).1, (runFrom .expectEvent rest e).2)
      | .stopClean evs => (evs, .clean)
      | .stopErr e2 => ([], .err e2)
      | .panicA => ([], .panicked) := by
  have h1 : '\n' ∉ strEventPre ++ ty := by
    intro hmem
    rcases List.mem_append.mp hmem with hm | hm
    · revert hm
      decide
    · exact hty hm
  have h2 : '\n' ∉ strDataPre ++ d := by
    intro hmem
    rcases List.mem_append.mp hmem with hm | hm
    · revert hm
      decide
    · exact hd hm
  show runFrom .expectEvent
      (⟨strEventPre ++ ty, false⟩ :: ⟨strDataPre ++ d, false⟩ :: ⟨[], false⟩ :: rest) e = _
  rw [runFrom, runFrom, if_neg (by simp), runFrom]
  have hsplit : splitOnChar '\n'
      ((strEventPre ++ ty) ++ '\n' :: (([] ++ (strDataPre ++ d)) ++ ['\n'])) =
      [strEventPre ++ ty, strDataPre ++ d, []] := by
    rw [List.nil_append, splitOnChar_append _ _ _ h1,
      show (strDataPre ++ d) ++ ['\n'] = (strDataPre ++ d) ++ '\n' :: [] from rfl,
      splitOnChar_append _ _ _ h2]
    rfl
  simp only [hsplit, List.getD, List.get?_cons_zero, List.get?_cons_succ,
    Option.getD_some, stripFirst_pre]

theorem runFrom_chunk_aux (B : Nat) (hB : 0 < B) :
    ∀ (n : Nat) (s : Str), s.length ≤ n →
      ∀ (evt acc : Str) (rest : List Frag) (e : ScanErr),
        runFrom (.readData evt acc) (chunk B s ++ rest) e =
          runFrom (.expectBlank evt (acc ++ s)) rest e := by
  intro n
  induction n with
  | zero =>
    intro s hs evt acc rest e
    have hnil : s = [] := List.length_eq_zero.mp (Nat.le_zero.mp hs)
    subst hnil
    rw [chunk, if_pos (by simpa using hB)]
    rw [List.cons_append, List.nil_append, runFrom, if_neg (by simp),
      List.append_nil]
  | succ n ih =>
    intro s hs evt acc rest e
    by_cases hlt : s.length < B
    · rw [chunk, if_pos hlt, List.cons_append, List.nil_append, runFrom,
        if_neg (by simp)]
    · rw [chunk, if_neg hlt, dif_neg (Nat.pos_iff_ne_zero.mp hB),
        List.cons_append, runFrom, if_pos (by simp)]
      rw [ih (s.drop B) (by simp; omega) evt (acc ++ s.take B) rest e,
        List.append_assoc, List.take_append_drop]

theorem runFrom_chunk (B : Nat) (hB : 0 < B) (s evt acc : Str)
    (rest : List Frag) (e : ScanErr) :
    runFrom (.readData evt acc) (chunk B s ++ rest) e =
      runFrom (.expectBlank evt (acc ++ s)) rest e :=
  runFrom_chunk_aux B hB s.length s le_rfl evt acc rest e

theorem runFrom_two_steps (a c : Str) (b : Bool) (l : List Frag) (e : ScanErr) :
    runFrom .expectEvent (⟨a, b⟩ :: ⟨c, false⟩ :: l) e =
      runFrom (.expectBlank a ([] ++ c)) l e := by
  rw [runFrom, runFrom, if_neg (by simp)]

/-- C1: a second Watch call on a handle with an active session closes
the channel it was given and returns nil, sends nothing on that
channel, starts no session, and leaves the handle — and therefore the
active session's event stream — exactly as it was. -/
theorem watch_second_call_noop (h : Handle) (hw : h.watching = true) :
    Watch h = (⟨true, [], true, false⟩, h) ∧
      sessionTrace (Watch h).2 = sessionTrace h := by
  constructor
  · rw [Watch, if_pos hw]
  · rw [Watch, if_pos hw]

theorem watch_second_call_noop_w :
    Watch ⟨true, false, true, [], ScanErr.ioErr "eof".data⟩ =
      (⟨true, [], true, false⟩, ⟨true, false, true, [], ScanErr.ioErr "eof".data⟩) ∧
      sessionTrace (Watch ⟨true, false, true, [], ScanErr.ioErr "eof".data⟩).2 =
        sessionTrace ⟨true, false, true, [], ScanErr.ioErr "eof".data⟩ :=
  watch_second_call_noop ⟨true, false, true, [], ScanErr.ioErr "eof".data⟩ rfl

/-- C3: once StopWatching has set closedManually, no EventTypeError
event is ever delivered on the consumer channel — the synthetic error
induced by the forced closure is dropped by the forwarding loop — and
the channel is closed (provided the read loop did not die in a panic,
in which case nothing closes it). -/
theorem stop_suppresses_error (frags : List Frag) (e0 : ScanErr) :
    (∀ ev ∈ (consumerRun true frags e0).1, ev.Type_ ≠ EventTypeError) ∧
      ((runWatch frags e0).2 ≠ RunEnd.panicked → (consumerRun true frags e0).2 = true) := by
  refine ⟨?_, consumerRun_closed true frags e0⟩
  intro ev hev
  unfold consumerRun watchChan at hev
  rcases hr : runWatch frags e0 with ⟨evs, fin⟩
  rw [hr] at hev
  have hno : ∀ x ∈ evs, x.Type_ ≠ EventTypeError := by
    intro x hx
    refine runFrom_no_error_event frags .expectEvent e0 x ?_
    rw [show runFrom .expectEvent frags e0 = (evs, fin) from hr]
    exact hx
  cases fin with
  | err e =>
    rw [forwardRun_stop evs true (errEvent e) hno rfl] at hev
    exact hno ev hev
  | clean =>
    rw [forwardRun_pass true evs true (fun x hx => by simp [hno x hx])] at hev
    exact hno ev hev
  | panicked =>
    rw [forwardRun_pass true evs false (fun x hx => by simp [hno x hx])] at hev
    exact hno ev hev

theorem stop_suppresses_error_w :
    consumerRun true [] (ScanErr.ioErr "use of closed network connection".data) =
        ([], true) ∧
      (∀ ev ∈ (consumerRun true []
          (ScanErr.ioErr "use of closed network connection".data)).1,
        ev.Type_ ≠ EventTypeError) :=
  ⟨rfl, (stop_suppresses_error [] (ScanErr.ioErr "use of closed network connection".data)).1⟩

/-- C4: when the read loop ends with scanErr set and StopWatching was
never called, the consumer receives the loop's events followed by
exactly one EventTypeError event, and then the channel is closed with
nothing after it. -/
theorem fault_one_error_then_close (frags : List Frag) (e0 : ScanErr)
    (evs : List Event) (e : ScanErr)
    (h : runWatch frags e0 = (evs, RunEnd.err e)) :
    consumerRun false frags e0 = (evs ++ [errEvent e], true) ∧
      (∀ ev ∈ evs, ev.Type_ ≠ EventTypeError) ∧
      (evs ++ [errEvent e]).countP (fun ev => ev.Type_ = EventTypeError) = 1 := by
  have hno : ∀ x ∈ evs, x.Type_ ≠ EventTypeError := by
    intro x hx
    refine runFrom_no_error_event frags .expectEvent e0 x ?_
    rw [show runFrom .expectEvent frags e0 = (evs, RunEnd.err e) from h]
    exact hx
  refine ⟨?_, hno, ?_⟩
  · unfold consumerRun watchChan
    rw [h]
    dsimp only
    rw [forwardRun_false]
  · rw [List.countP_append]
    have h0 : evs.countP (fun ev => decide (ev.Type_ = EventTypeError)) = 0 := by
      rw [List.countP_eq_zero]
      intro a ha
      simpa using hno a ha
    rw [h0]
    rfl

theorem fault_one_error_then_close_w :
    consumerRun false [] (ScanErr.ioErr "connection reset by peer".data) =
        ([errEvent (ScanErr.ioErr "connection reset by peer".data)], true) ∧
      (∀ ev ∈ ([] : List Event), ev.Type_ ≠ EventTypeError) ∧
      (([] : List Event) ++ [errEvent (ScanErr.ioErr "connection reset by peer".data)]).countP
          (fun ev => ev.Type_ = EventTypeError) = 1 :=
  fault_one_error_then_close [] (ScanErr.ioErr "connection reset by peer".data) [] _ rfl

/-- C5: a well-formed cancel frame yields exactly the Cancel event and
a well-formed auth_revoked frame exactly the AuthRevoked event carrying
the raw data string; in both cases the channel is then closed with no
error event and the remainder of the byte stream is never read. -/
theorem cancel_auth_terminate (d : Str) (rest : List Frag) (e0 : ScanErr) (cm : Bool)
    (hd : '\n' ∉ d) :
    consumerRun cm (frameFrags eventTypeCancel d ++ rest) e0 =
        ([⟨eventTypeCancel, [], .jnull, d⟩], true) ∧
      consumerRun cm (frameFrags EventTypeAuthRevoked d ++ rest) e0 =
        ([⟨EventTypeAuthRevoked, [], .jstr d, d⟩], true) := by
  have hc : ('\n' : Char) ∉ eventTypeCancel := by decide
  have ha : ('\n' : Char) ∉ EventTypeAuthRevoked := by decide
  constructor
  · have h1 : runWatch (frameFrags eventTypeCancel d ++ rest) e0 =
        ([⟨eventTypeCancel, [], .jnull, d⟩], .clean) := by
      unfold runWatch
      rw [runFrom_frame _ _ _ _ hc hd]
      rfl
    unfold consumerRun watchChan
    rw [h1]
    dsimp only
    rw [forwardRun_pass]
    intro ev hev
    rw [List.mem_singleton] at hev
    subst hev
    intro hand
    have hne : eventTypeCancel ≠ EventTypeError := by decide
    exact hne hand.1
  · have h1 : runWatch (frameFrags EventTypeAuthRevoked d ++ rest) e0 =
        ([⟨EventTypeAuthRevoked, [], .jstr d, d⟩], .clean) := by
      unfold runWatch
      rw [runFrom_frame _ _ _ _ ha hd]
      rfl
    unfold consumerRun watchChan
    rw [h1]
    dsimp only
    rw [forwardRun_pass]
    intro ev hev
    rw [List.mem_singleton] at hev
    subst hev
    intro hand
    have hne : EventTypeAuthRevoked ≠ EventTypeError := by decide
    exact hne hand.1

theorem cancel_auth_terminate_w :
    consumerRun false (frameFrags eventTypeCancel "null".data ++
        frameFrags EventTypePut "ignored".data) (ScanErr.ioErr "eof".data) =
      ([⟨eventTypeCancel, [], .jnull, "null".data⟩], true) ∧
      consumerRun false (frameFrags EventTypeAuthRevoked "null".data ++
          frameFrags EventTypePut "ignored".data) (ScanErr.ioErr "eof".data) =
        ([⟨EventTypeAuthRevoked, [], .jstr "null".data, "null".data⟩], true) :=
  cancel_auth_terminate "null".data (frameFrags EventTypePut "ignored".data)
    (ScanErr.ioErr "eof".data) false (by decide)

/-- C6 counterexample: a frame whose event type is not one of the six
known strings is not treated as a decode error; the loop silently skips
it and keeps going, here delivering the following cancel frame and
ending the session cleanly. -/
theorem unknown_type_not_error_cex :
    runWatch (frameFrags "bogus".data "x".data ++
        frameFrags eventTypeCancel "null".data) (ScanErr.ioErr "eof".data) =
      ([⟨eventTypeCancel, [], .jnull, "null".data⟩], RunEnd.clean) := rfl

/-- C6 amended: a frame whose event-type string matches none of put,
patch, keep-alive, cancel, auth_revoked or rules_debug is silently
skipped — it produces no event and no error, and the loop continues
with the rest of the stream exactly as if the frame were absent. -/
theorem unknown_type_skipped (ty d : Str) (rest : List Frag) (e0 : ScanErr)
    (hty : '\n' ∉ ty) (hd : '\n' ∉ d)
    (hu : ty ∉ [EventTypePut, EventTypePatch, eventTypeKeepAlive, eventTypeCancel,
      EventTypeAuthRevoked, eventTypeRulesDebug]) :
    runWatch (frameFrags ty d ++ rest) e0 = runWatch rest e0 := by
  simp only [List.mem_cons, List.mem_singleton, not_or] at hu
  obtain ⟨h1, h2, h3, h4, h5, h6, -⟩ := hu
  unfold runWatch
  rw [runFrom_frame _ _ _ _ hty hd]
  rw [show decodeFrame ty d = FrameAct.cont [] from by
    unfold decodeFrame
    rw [if_neg (not_or.mpr ⟨h1, h2⟩), if_neg h3, if_neg h4, if_neg h5, if_neg h6]]
  dsimp only
  rw [List.nil_append]

theorem unknown_type_skipped_w :
    runWatch (frameFrags "bogus".data "x".data ++ []) (ScanErr.ioErr "eof".data) =
        runWatch [] (ScanErr.ioErr "eof".data) ∧
      runWatch [] (ScanErr.ioErr "eof".data) = ([], RunEnd.err (ScanErr.ioErr "eof".data)) :=
  ⟨unknown_type_skipped "bogus".data "x".data [] (ScanErr.ioErr "eof".data)
    (by decide) (by decide) (by decide), rfl⟩

/-- C7: a data line split by the reader into any number of continuation
fragments is reassembled so that the run behaves exactly as if the line
had arrived whole, for every buffer size and with no bound on the line
length; in particular a put frame whose payload decodes to an object
with a string path yields an event whose RawData is byte-for-byte the
original data line. -/
theorem long_data_line_reassembled (B : Nat) (ty ds : Str) (rest : List Frag)
    (e0 : ScanErr) (hB : 0 < B) (_hty : '\n' ∉ ty) (hd : '\n' ∉ ds) :
    runWatch (⟨strEventPre ++ ty, false⟩ ::
        (chunk B (strDataPre ++ ds) ++ (⟨[], false⟩ :: rest))) e0 =
      runWatch (frameFrags ty ds ++ rest) e0 ∧
    (∀ (m : Option (List (Str × GoVal))) (p : Str),
      unmarshalMap ds = Except.ok m → pathString m = some p →
      runWatch (frameFrags EventTypePut ds ++ rest) e0 =
        (⟨EventTypePut, p, dataValue m, ds⟩ :: (runWatch rest e0).1,
          (runWatch rest e0).2)) := by
  constructor
  · calc
      runWatch (⟨strEventPre ++ ty, false⟩ ::
          (chunk B (strDataPre ++ ds) ++ (⟨[], false⟩ :: rest))) e0 =
          runFrom (.readData (strEventPre ++ ty) [])
            (chunk B (strDataPre ++ ds) ++ (⟨[], false⟩ :: rest)) e0 := by
        unfold runWatch
        rw [runFrom]
      _ = runFrom (.expectBlank (strEventPre ++ ty) ([] ++ (strDataPre ++ ds)))
            (⟨[], false⟩ :: rest) e0 :=
        runFrom_chunk B hB (strDataPre ++ ds) (strEventPre ++ ty) []
          (⟨[], false⟩ :: rest) e0
      _ = runWatch (frameFrags ty ds ++ rest) e0 :=
        (runFrom_two_steps (strEventPre ++ ty) (strDataPre ++ ds) false
          (⟨[], false⟩ :: rest) e0).symm
  · intro m p hm hp
    unfold runWatch
    rw [runFrom_frame _ _ _ _ (by decide) hd]
    rw [show decodeFrame EventTypePut ds =
        FrameAct.cont [⟨EventTypePut, p, dataValue m, ds⟩] from by
      unfold decodeFrame
      rw [if_pos (Or.inl rfl), hm]
      dsimp only
      rw [hp]]
    dsimp only
    rw [List.singleton_append]

theorem long_data_line_reassembled_w :
    runWatch (⟨strEventPre ++ EventTypePut, false⟩ ::
        (chunk 4 (strDataPre ++ "\x7b\"path\":\"/\"\x7d".data) ++
          (⟨[], false⟩ :: []))) (ScanErr.ioErr "eof".data) =
      runWatch (frameFrags EventTypePut "\x7b\"path\":\"/\"\x7d".data ++ [])
        (ScanErr.ioErr "eof".data) ∧
    runWatch (frameFrags EventTypePut "\x7b\"path\":\"/\"\x7d".data ++ [])
        (ScanErr.ioErr "eof".data) =
      (⟨EventTypePut, "/".data,
          dataValue (some [("path".data, GoVal.jstr "/".data)]),
          "\x7b\"path\":\"/\"\x7d".data⟩ ::
        (runWatch [] (ScanErr.ioErr "eof".data)).1,
        (runWatch [] (ScanErr.ioErr "eof".data)).2) :=
  ⟨(long_data_line_reassembled 4 EventTypePut "\x7b\"path\":\"/\"\x7d".data []
      (ScanErr.ioErr "eof".data) (by decide) (by decide) (by decide)).1,
    (long_data_line_reassembled 4 EventTypePut "\x7b\"path\":\"/\"\x7d".data []
      (ScanErr.ioErr "eof".data) (by decide) (by decide) (by decide)).2
      (some [("path".data, GoVal.jstr "/".data)]) "/".data rfl rfl⟩

/-- C9: a put or patch frame whose data line is valid JSON but does not
decode to an object with a string under the path key makes the loop
panic on the data["path"].(string) assertion: no event is delivered, no
decode error is reported, and the consumer channel is never closed. -/
theorem put_bad_path_panics (d : Str) (rest : List Frag) (e0 : ScanErr)
    (m : Option (List (Str × GoVal)))
    (hd : '\n' ∉ d) (hm : unmarshalMap d = Except.ok m) (hp : pathString m = none) :
    runWatch (frameFrags EventTypePut d ++ rest) e0 = ([], RunEnd.panicked) ∧
      runWatch (frameFrags EventTypePatch d ++ rest) e0 = ([], RunEnd.panicked) ∧
      consumerRun false (frameFrags EventTypePut d ++ rest) e0 = ([], false) := by
  have hput : runWatch (frameFrags EventTypePut d ++ rest) e0 = ([], RunEnd.panicked) := by
    unfold runWatch
    rw [runFrom_frame _ _ _ _ (by decide) hd]
    rw [show decodeFrame EventTypePut d = FrameAct.panicA from by
      unfold decodeFrame
      rw [if_pos (Or.inl rfl), hm]
      dsimp only
      rw [hp]]
  refine ⟨hput, ?_, ?_⟩
  · unfold runWatch
    rw [runFrom_frame _ _ _ _ (by decide) hd]
    rw [show decodeFrame EventTypePatch d = FrameAct.panicA from by
      unfold decodeFrame
      rw [if_pos (Or.inr rfl), hm]
      dsimp only
      rw [hp]]
  · unfold consumerRun watchChan
    rw [hput]
    rfl

theorem put_bad_path_panics_w :
    runWatch (frameFrags EventTypePut "null".data ++ []) (ScanErr.ioErr "eof".data) =
        ([], RunEnd.panicked) ∧
      runWatch (frameFrags EventTypePatch "null".data ++ []) (ScanErr.ioErr "eof".data) =
        ([], RunEnd.panicked) ∧
      consumerRun false (frameFrags EventTypePut "null".data ++ [])
          (ScanErr.ioErr "eof".data) = ([], false) :=
  put_bad_path_panics "null".data [] (ScanErr.ioErr "eof".data) none
    (by decide) rfl rfl

/-- C2 counterexample: in watch.go a session that ends by a stream
fault closes the consumer channel, yet the watching flag is still set
afterwards, so the next Watch call closes its channel and starts no new
session — the handle does not return to a state in which a fresh Watch
can start one. -/
theorem fault_leaves_watching_cex :
    (sessionTrace (Watch ⟨false, false, true, [], ScanErr.ioErr "eof".data⟩).2).2 = true ∧
      (runSession (Watch ⟨false, false, true, [], ScanErr.ioErr "eof".data⟩).2).2.watching = true ∧
      (Watch (runSession (Watch ⟨false, false, true, [],
          ScanErr.ioErr "eof".data⟩).2).2).1.startedSession = false ∧
      (Watch (runSession (Watch ⟨false, false, true, [],
          ScanErr.ioErr "eof".data⟩).2).2).1.chanClosed = true :=
  ⟨rfl, rfl, rfl, rfl⟩

/-- C2 amended: the consumer channel is closed exactly once on every
session end that is not a panic, in both revisions; but only the older
revision clears the watching flag itself at session end — in watch.go
the goroutines never touch the flag, only StopWatching clears it, so
after a fault or server-initiated closure a fresh Watch merely closes
its channel until StopWatching is called. -/
theorem session_cleanup_amended (frags : List Frag) (e0 : ScanErr) (cm : Bool)
    (h : Handle) (hw : h.watching = true)
    (hp : (runWatch h.frags h.endErr).2 ≠ RunEnd.panicked) :
    (watchChanOld frags e0 cm).2.1 = true ∧
      (watchChanOld frags e0 cm).2.2 = false ∧
      (sessionTrace h).2 = true ∧
      (runSession h).2.watching = true ∧
      (StopWatching h).watching = false ∧
      (Watch (runSession h).2).1.startedSession = false ∧
      (Watch (runSession h).2).1.chanClosed = true := by
  refine ⟨rfl, rfl, consumerRun_closed h.closedManually h.frags h.endErr hp, hw, ?_, ?_, ?_⟩
  · rw [StopWatching, if_pos hw]
  · show (Watch h).1.startedSession = false
    rw [Watch, if_pos hw]
  · show (Watch h).1.chanClosed = true
    rw [Watch, if_pos hw]

theorem session_cleanup_amended_w :
    (watchChanOld [] (ScanErr.ioErr "eof".data) false).2.1 = true ∧
      (watchChanOld [] (ScanErr.ioErr "eof".data) false).2.2 = false ∧
      (sessionTrace ⟨true, false, true, [], ScanErr.ioErr "eof".data⟩).2 = true ∧
      (runSession ⟨true, false, true, [], ScanErr.ioErr "eof".data⟩).2.watching = true ∧
      (StopWatching ⟨true, false, true, [], ScanErr.ioErr "eof".data⟩).watching = false ∧
      (Watch (runSession ⟨true, false, true, [],
          ScanErr.ioErr "eof".data⟩).2).1.startedSession = false ∧
      (Watch (runSession ⟨true, false, true, [],
          ScanErr.ioErr "eof".data⟩).2).1.chanClosed = true :=
  session_cleanup_amended [] (ScanErr.ioErr "eof".data) false
    ⟨true, false, true, [], ScanErr.ioErr "eof".data⟩ rfl (by decide)

/-- C8 counterexample: status 300 is neither 2xx nor 307, yet doRequest
treats it as success because 300/200 = 1; and the fallback error for an
unparsable body has Type "nestapi#json-parse", not "nestapi#parse-error". -/
theorem status_range_fallback_cex :
    classifyResponse 300 [] = WriteOutcome.success [] ∧
      classifyResponse 404 "nope".data = WriteOutcome.failure fallbackAPIError ∧
      fallbackAPIError.Type_ = "nestapi#json-parse".data ∧
      "nestapi#json-parse".data ≠ "nestapi#parse-error".data :=
  ⟨rfl, rfl, rfl, by decide⟩

/-- C8 amended: after the 307 redirect branch, a write request fails
with an APIError decoded from the JSON body (or the fallback APIError,
whose Type is "nestapi#json-parse") exactly when the status code is
below 200 or at least 400 — integer division by 200, so 3xx responses
other than 307 are treated as success. -/
theorem status_range_amended (status : Nat) (body : Str) (h307 : status ≠ 307) :
    (status < 200 ∨ 400 ≤ status →
      classifyResponse status body =
        WriteOutcome.failure ((unmarshalAPIError body).getD fallbackAPIError)) ∧
      (200 ≤ status → status < 400 →
        classifyResponse status body = WriteOutcome.success body) ∧
      fallbackAPIError.Type_ = "nestapi#json-parse".data := by
  refine ⟨?_, ?_, rfl⟩
  · intro hr
    rw [classifyResponse, if_neg h307, if_pos (by omega)]
  · intro hlo hhi
    rw [classifyResponse, if_neg h307, if_neg (by omega)]

theorem status_range_amended_w :
    (404 < 200 ∨ 400 ≤ 404 →
      classifyResponse 404 "nope".data =
        WriteOutcome.failure ((unmarshalAPIError "nope".data).getD fallbackAPIError)) ∧
      (200 ≤ 404 → 404 < 400 →
        classifyResponse 404 "nope".data = WriteOutcome.success "nope".data) ∧
      fallbackAPIError.Type_ = "nestapi#json-parse".data :=
  status_range_amended 404 "nope".data (by decide)

/-- C10: an APIError whose Type contains no hash character makes Reason
index past the end of the one-element split — a panic in Go — and Error,
which calls Reason, panics the same way. -/
theorem reason_no_hash_panics (e : APIError) (h : '#' ∉ e.Type_) :
    Reason e = none ∧ ErrorString e = none := by
  have hr : Reason e = none := by
    unfold Reason
    rw [splitOnChar_eq_single '#' e.Type_ h]
    rfl
  refine ⟨hr, ?_⟩
  unfold ErrorString
  rw [hr]

theorem reason_no_hash_panics_w :
    Reason ⟨[], [], [], [], .jnull⟩ = none ∧
      ErrorString ⟨[], [], [], [], .jnull⟩ = none :=
  reason_no_hash_panics ⟨[], [], [], [], .jnull⟩ (by decide)
